import Mathlib

/-!
# Package `awss3`: the S3 storage facade

A shallow embedding of `aws.go` and `config.go`.

* Go strings are Lean strings.  The only bytes the code inspects are `'.'` and
  `'/'`, which are ASCII and never occur inside a multi-byte UTF-8 sequence, so
  scanning characters and scanning bytes agree on every valid UTF-8 string.
* A Go `*string` is an `Option String`; a Go slice is a Lean list (a nil slice
  and an empty slice are both `[]`); `[]byte` is a list of `UInt8`.
* A Go `error` result is an `Option GoError` (`none` is `nil`); a Go
  `(T, error)` result whose value is only meaningful when the error is nil is
  an `Except GoError T`.  `BucketExists` returns both values in every case and
  is embedded as a pair.
* The provider (the SDK client and the two transfer managers) is outside the
  package.  It is a parameter: every SDK entry point is a function of the
  provider's state that returns an answer and the next state.  Every request
  handed to the provider is appended to a log, so that "no call to the
  provider" is a statement about the log.
-/

namespace awss3

/-! ## Errors -/

/-- The dynamic type of an error value implementing `smithy.APIError`:
`*types.NotFound`, or any other concrete type (named by `name`), for instance
`*types.NoSuchBucket` or `*smithy.GenericAPIError`. -/
inductive APIErrorType where
  | NotFound
  | otherType (name : String)
  deriving DecidableEq, Repr

/-- A Go error value: its `Error()` text, whether its dynamic type implements
`smithy.APIError` (and which type it is), and the error it unwraps to, if any.
Errors form chains, as the errors of the SDK do; an error that unwraps to
several errors at once is not modelled. -/
inductive GoError where
  | leaf (api : Option APIErrorType) (msg : String)
  | wrap (api : Option APIErrorType) (msg : String) (inner : GoError)
  deriving DecidableEq, Repr

/-- The `Error()` method. -/
def GoError.Error : GoError → String
  | .leaf _ msg => msg
  | .wrap _ msg _ => msg

/-- Function `errors.New(msg)`: a fresh error that wraps nothing. -/
def errorsNew (msg : String) : GoError := .leaf none msg

/-- Function `errors.Wrap(err, msg)` of `github.com/pkg/errors`: the text is
`msg: err.Error()` and the result unwraps to `err`. -/
def errorsWrap (err : GoError) (msg : String) : GoError :=
  .wrap none (msg ++ ": " ++ err.Error) err

/-- Function `errors.As(err, &apiError)` for a target of interface type
`smithy.APIError`: walk the `Unwrap` chain from the outside and stop at the
first error that implements the interface; the result is its dynamic type. -/
def errorsAs : GoError → Option APIErrorType
  | .leaf api _ => api
  | .wrap (some t) _ _ => some t
  | .wrap none _ inner => errorsAs inner

/-- Modelled from the spec: the package-level value `ErrEmptyBucket` is
declared in a file that is not among the sources; the spec calls it
`InvalidArgument`.  It is a plain error that wraps nothing.  Its text is not
known and nothing below depends on it. -/
def ErrEmptyBucket : GoError := errorsNew "empty bucket"

/-! ## `filepath.Ext` -/

/-- Function `os.IsPathSeparator` on Unix. -/
def IsPathSeparator (c : Char) : Bool := c == '/'

/-- The loop of `filepath.Ext`, `for i := len(path) - 1; i >= 0 &&
!os.IsPathSeparator(path[i]); i--`, with the second argument being `i + 1`:
when `path[i]` is a dot the result is `path[i:]`.  The loop starts at
`len(path) - 1`, so the index is always in range and the `none` branch is
never taken. -/
def ExtLoop (path : List Char) : Nat → List Char
  | 0 => []
  | i + 1 =>
    match path.get? i with
    | none => []
    | some c =>
      if IsPathSeparator c then []
      else if c = '.' then path.drop i
      else ExtLoop path i

/-- Function `filepath.Ext(path)`: the suffix beginning at the final dot in the
final slash-separated element of `path`; empty if there is no dot. -/
def Ext (path : String) : String := ⟨ExtLoop path.data path.data.length⟩

/-! ## Provider types -/

/-- Type `types.Object`, an entry of a listing (only `Key` is read). -/
structure Object where
  Key : Option String
  deriving DecidableEq, Repr

/-- Type `s3.ListObjectsInput`. -/
structure ListObjectsInput where
  Bucket : String
  deriving DecidableEq, Repr

/-- Type `s3.ListObjectsOutput` (only `Contents` is read). -/
structure ListObjectsOutput where
  Contents : List Object
  deriving DecidableEq, Repr

/-- Type `s3.PutObjectInput`. -/
structure PutObjectInput where
  Bucket : String
  Key : String
  Body : List UInt8
  deriving DecidableEq, Repr

/-- Type `manager.UploadOutput` (only `Key` is read). -/
structure UploadOutput where
  Key : Option String
  deriving DecidableEq, Repr

/-- Type `s3.GetObjectInput`. -/
structure GetObjectInput where
  Bucket : String
  Key : String
  deriving DecidableEq, Repr

/-- Type `types.ObjectIdentifier`. -/
structure ObjectIdentifier where
  Key : Option String
  deriving DecidableEq, Repr

/-- Type `s3.DeleteObjectsInput`, with `Delete.Objects` inlined. -/
structure DeleteObjectsInput where
  Bucket : String
  Objects : List ObjectIdentifier
  deriving DecidableEq, Repr

/-- Type `types.DeletedObject` (only `Key` is read). -/
structure DeletedObject where
  Key : Option String
  deriving DecidableEq, Repr

/-- Type `s3.DeleteObjectsOutput` (only `Deleted` is read). -/
structure DeleteObjectsOutput where
  Deleted : List DeletedObject
  deriving DecidableEq, Repr

/-- Type `types.Bucket`. -/
structure Bucket where
  Name : Option String
  deriving DecidableEq, Repr

/-- Type `s3.CreateBucketInput`, with the location constraint inlined. -/
structure CreateBucketInput where
  Bucket : String
  LocationConstraint : String
  deriving DecidableEq, Repr

/-- A request handed to the provider. -/
inductive Call where
  | ListObjects (i : ListObjectsInput)
  | Upload (i : PutObjectInput)
  | Download (i : GetObjectInput)
  | DeleteObjects (i : DeleteObjectsInput)
  | ListBuckets
  | HeadBucket (bucket : String)
  | CreateBucket (i : CreateBucketInput)
  | DeleteBucket (bucket : String)
  deriving DecidableEq, Repr

/-! ## The provider and the facade -/

/-- Type `*s3.Client`: the SDK entry points the facade uses, each a function of
the provider's state `σ` giving an answer and the next state. -/
structure Client (σ : Type) where
  ListObjects : σ → ListObjectsInput → Except GoError ListObjectsOutput × σ
  DeleteObjects : σ → DeleteObjectsInput → Except GoError DeleteObjectsOutput × σ
  ListBuckets : σ → Except GoError (List Bucket) × σ
  HeadBucket : σ → String → Option GoError × σ
  CreateBucket : σ → CreateBucketInput → Option GoError × σ
  DeleteBucket : σ → String → Option GoError × σ

/-- Type `*manager.Uploader`: method `Upload`. -/
structure Uploader (σ : Type) where
  Upload : σ → PutObjectInput → Except GoError UploadOutput × σ

/-- Type `*manager.Downloader`: method `Download`; on success the answer is the
content written into the caller's buffer. -/
structure Downloader (σ : Type) where
  Download : σ → GetObjectInput → Except GoError (List UInt8) × σ

/-- The provider as the facade sees it: its state and the log of the requests
it has received, oldest first. -/
structure World (σ : Type) where
  state : σ
  calls : List Call

/-- Hand request `c` to the provider: run `f` on the provider's state and log
the request. -/
def World.invoke {σ α : Type} (w : World σ) (c : Call) (f : σ → α × σ) : α × World σ :=
  ((f w.state).1, ⟨(f w.state).2, w.calls ++ [c]⟩)

/-- Type `Config`. -/
structure Config where
  AccessID : String
  SecretKey : String
  Token : String
  Region : String
  Endpoint : String
  deriving DecidableEq, Repr

/-- Rule `validation.Required` on a string field: the error text when the
string is empty. -/
def Required (value : String) : Option String :=
  if value = "" then some "cannot be blank" else none

/-- Method `Config.Validate`: `validation.ValidateStruct` with `Required` on
`AccessID`, `SecretKey` and `Region`.  The result lists the failing fields
under their `json` names; the empty list is a nil error. -/
def Config.Validate (c : Config) : List (String × String) :=
  [("S3_ACCESS_ID", Required c.AccessID),
   ("S3_SECRET_KEY", Required c.SecretKey),
   ("S3_REGION", Required c.Region)].filterMap
    (fun fe => fe.2.map (fun e => (fe.1, e)))

/-- Type `S3` (the logger is not modelled). -/
structure S3 (σ : Type) where
  cfg : Config
  svc : Client σ
  uploader : Uploader σ
  downloader : Downloader σ

/-- Type `aws.Endpoint` as built by the custom endpoint resolver of `New`. -/
structure Endpoint where
  PartitionID : String
  URL : String
  SigningRegion : String
  HostnameImmutable : Bool
  deriving DecidableEq, Repr

/-- The options `New` passes to `config.LoadDefaultConfig`. -/
structure LoadOptions where
  Region : String
  AccessID : String
  SecretKey : String
  Token : String
  Endpoint : Endpoint
  deriving DecidableEq, Repr

/-- The SDK functions `New` calls: `config.LoadDefaultConfig` and the three
constructors `s3.NewFromConfig`, `manager.NewUploader`, `manager.NewDownloader`. -/
structure SDK (σ : Type) where
  awsConfig : Type
  LoadDefaultConfig : LoadOptions → Except GoError awsConfig
  NewFromConfig : awsConfig → Client σ
  NewUploader : Client σ → Uploader σ
  NewDownloader : Client σ → Downloader σ

/-- The endpoint the `customEndpointResolver` closure of `New` returns for
every service and region. -/
def customEndpointResolver (cfg : Config) : Endpoint :=
  { PartitionID := "selectel", URL := cfg.Endpoint, SigningRegion := cfg.Region,
    HostnameImmutable := true }

/-- The options `New` hands to `config.LoadDefaultConfig`: the region, the
static credentials and the endpoint resolver (the logger options are not
modelled). -/
def loadOptions (cfg : Config) : LoadOptions :=
  { Region := cfg.Region, AccessID := cfg.AccessID, SecretKey := cfg.SecretKey,
    Token := cfg.Token, Endpoint := customEndpointResolver cfg }

/-- Function `New`.  It does not call `cfg.Validate`. -/
def New {σ : Type} (sdk : SDK σ) (cfg : Config) : Except GoError (S3 σ) :=
  match sdk.LoadDefaultConfig (loadOptions cfg) with
  | .error err => .error err
  | .ok awsCfg =>
    let svc := sdk.NewFromConfig awsCfg
    .ok { cfg := cfg, svc := svc, uploader := sdk.NewUploader svc,
          downloader := sdk.NewDownloader svc }

/-- A Go slice `[]α`. -/
abbrev Slice (α : Type) := List α

/-- The loop of `List`: append to `result` every key that is not nil, not
empty and has a non-empty extension. -/
def ListLoop : List Object → List String → List String
  | [], result => result
  | value :: rest, result =>
    match value.Key with
    | some key =>
      if key ≠ "" ∧ Ext key ≠ "" then ListLoop rest (result ++ [key])
      else ListLoop rest result
    | none => ListLoop rest result

/-- Method `S3.List`. -/
def S3.List {σ : Type} (s : S3 σ) (bucket : String) (w : World σ) :
    Except GoError (Slice String) × World σ :=
  if bucket = "" then (.error ErrEmptyBucket, w)
  else
    let r := w.invoke (.ListObjects ⟨bucket⟩) (fun st => s.svc.ListObjects st ⟨bucket⟩)
    match r.1 with
    | .error err => (.error (errorsWrap err "ListObjects error"), r.2)
    | .ok res => (.ok (ListLoop res.Contents []), r.2)

/-- Method `S3.Upload`. -/
def S3.Upload {σ : Type} (s : S3 σ) (bucket filePath : String) (content : Slice UInt8)
    (w : World σ) : Except GoError String × World σ :=
  if bucket = "" then (.error ErrEmptyBucket, w)
  else if content.length = 0 then (.error (errorsNew "empty file content"), w)
  else
    let r := w.invoke (.Upload ⟨bucket, filePath, content⟩)
      (fun st => s.uploader.Upload st ⟨bucket, filePath, content⟩)
    match r.1 with
    | .error err => (.error (errorsNew ("failed to upload file: " ++ err.Error)), r.2)
    | .ok result =>
      match result.Key with
      | none => (.error (errorsNew "received empty s3 file key"), r.2)
      | some key => (.ok key, r.2)

/-- Method `S3.Download`. -/
def S3.Download {σ : Type} (s : S3 σ) (bucket filePath : String) (w : World σ) :
    Except GoError (Slice UInt8) × World σ :=
  if bucket = "" then (.error ErrEmptyBucket, w)
  else if filePath = "" then (.error (errorsNew "empty file path"), w)
  else
    let r := w.invoke (.Download ⟨bucket, filePath⟩)
      (fun st => s.downloader.Download st ⟨bucket, filePath⟩)
    match r.1 with
    | .error err => (.error (errorsNew ("failed to download file, " ++ err.Error)), r.2)
    | .ok buff => (.ok buff, r.2)

/-- The inner loop of `Delete`: is `f` the key of some entry of the reported
deleted set? -/
def DeleteExist (f : String) : Slice DeletedObject → Bool
  | [] => false
  | delF :: rest =>
    match delF.Key with
    | some key => if key = f then true else DeleteExist f rest
    | none => DeleteExist f rest

/-- The error `fmt.Errorf("file \"%s\" was not deleted", f)`. -/
def ErrNotDeleted (f : String) : GoError :=
  errorsNew ("file \"" ++ f ++ "\" was not deleted")

/-- The outer loop of `Delete`: the first requested key that is missing from
the reported deleted set ends the loop with an error. -/
def DeleteVerify (Deleted : Slice DeletedObject) : Slice String → Option GoError
  | [] => none
  | f :: rest =>
    if !DeleteExist f Deleted then some (ErrNotDeleted f)
    else DeleteVerify Deleted rest

/-- The request `Delete` builds: one object identifier per key, in order. -/
def DeleteRequest (bucket : String) (filePaths : Slice String) : DeleteObjectsInput :=
  ⟨bucket, filePaths.map (fun key => ⟨some key⟩)⟩

/-- Method `S3.Delete`. -/
def S3.Delete {σ : Type} (s : S3 σ) (bucket : String) (filePaths : Slice String)
    (w : World σ) : Option GoError × World σ :=
  if bucket = "" then (some ErrEmptyBucket, w)
  else if filePaths.length = 0 then (some (errorsNew "empty filePaths array"), w)
  else
    let r := w.invoke (.DeleteObjects (DeleteRequest bucket filePaths))
      (fun st => s.svc.DeleteObjects st (DeleteRequest bucket filePaths))
    match r.1 with
    | .error err => (some (errorsWrap err "DeleteObjects error"), r.2)
    | .ok delResp => (DeleteVerify delResp.Deleted filePaths, r.2)

/-- Method `S3.ListBuckets`. -/
def S3.ListBuckets {σ : Type} (s : S3 σ) (w : World σ) :
    Except GoError (Slice Bucket) × World σ :=
  let r := w.invoke .ListBuckets (fun st => s.svc.ListBuckets st)
  match r.1 with
  | .error err =>
    (.error (errorsNew
      ("couldn't list buckets for your account. Here's why: " ++ err.Error)), r.2)
  | .ok buckets => (.ok buckets, r.2)

/-- Method `S3.BucketExists`: the result is the pair `(exists, err)`. -/
def S3.BucketExists {σ : Type} (s : S3 σ) (bucket : String) (w : World σ) :
    (Bool × Option GoError) × World σ :=
  let r := w.invoke (.HeadBucket bucket) (fun st => s.svc.HeadBucket st bucket)
  match r.1 with
  | none => ((true, none), r.2)
  | some err =>
    match errorsAs err with
    | some .NotFound => ((false, none), r.2)
    | _ => ((true, some err), r.2)

/-- Method `S3.CreateBucket`. -/
def S3.CreateBucket {σ : Type} (s : S3 σ) (bucket : String) (w : World σ) :
    Option GoError × World σ :=
  let r := w.invoke (.CreateBucket ⟨bucket, s.cfg.Region⟩)
    (fun st => s.svc.CreateBucket st ⟨bucket, s.cfg.Region⟩)
  match r.1 with
  | some err =>
    (some (errorsNew ("couldn't create bucket " ++ bucket ++ " in Region " ++ s.cfg.Region
      ++ ". Here's why: " ++ err.Error)), r.2)
  | none => (none, r.2)

/-- Method `S3.DeleteBucket`. -/
def S3.DeleteBucket {σ : Type} (s : S3 σ) (bucket : String) (w : World σ) :
    Option GoError × World σ :=
  let r := w.invoke (.DeleteBucket bucket) (fun st => s.svc.DeleteBucket st bucket)
  match r.1 with
  | some err =>
    (some (errorsNew ("couldn't delete bucket " ++ bucket ++ ". Here's why: " ++ err.Error)),
      r.2)
  | none => (none, r.2)

/-! ## The listing filter in the words of the specification -/

/-- The part of a key after its last `'/'` (the whole key if it has none). -/
def afterLastSlash (key : List Char) : List Char :=
  (key.reverse.takeWhile (fun c => c ≠ '/')).reverse

/-- A key is kept by a listing when it is non-empty and the part after its
last `'/'` contains a `'.'`. -/
def KeptKey (key : String) : Prop :=
  key ≠ "" ∧ '.' ∈ afterLastSlash key.data

instance (key : String) : Decidable (KeptKey key) := by
  unfold KeptKey; infer_instance

/-! ## Providers used to evaluate the facade on concrete inputs -/

/-- The answers of a provider that replies the same way to every request. -/
structure Answers where
  list : Except GoError ListObjectsOutput
  upload : Except GoError UploadOutput
  download : Except GoError (List UInt8)
  delete : Except GoError DeleteObjectsOutput
  buckets : Except GoError (List Bucket)
  head : Option GoError
  create : Option GoError
  remove : Option GoError

/-- A configuration with every required field filled in. -/
def sampleConfig : Config :=
  { AccessID := "id", SecretKey := "secret", Token := "", Region := "ru-1",
    Endpoint := "https://s3.example.test" }

/-- A facade over a stateless provider that replies with the given answers. -/
def fixedS3 (a : Answers) : S3 Unit :=
  { cfg := sampleConfig
    svc :=
      { ListObjects := fun st _ => (a.list, st)
        DeleteObjects := fun st _ => (a.delete, st)
        ListBuckets := fun st => (a.buckets, st)
        HeadBucket := fun st _ => (a.head, st)
        CreateBucket := fun st _ => (a.create, st)
        DeleteBucket := fun st _ => (a.remove, st) }
    uploader := { Upload := fun st _ => (a.upload, st) }
    downloader := { Download := fun st _ => (a.download, st) } }

/-- A provider at which every request succeeds with an empty answer, except
that no object can be downloaded. -/
def quietAnswers : Answers :=
  { list := .ok ⟨[]⟩
    upload := .ok ⟨none⟩
    download := .error (.leaf (some (.otherType "NoSuchKey")) "NoSuchKey")
    delete := .ok ⟨[]⟩
    buckets := .ok []
    head := none
    create := none
    remove := none }

/-- The world before any request: a stateless provider and an empty log. -/
def world0 : World Unit := ⟨(), []⟩

/-- An object held by the in-memory store. -/
structure Stored where
  Bucket : String
  Key : String
  Body : List UInt8
  deriving DecidableEq, Repr

/-- Look up the newest object stored under `bucket` and `key`. -/
def lookup (bucket key : String) : List Stored → Option (List UInt8)
  | [] => none
  | o :: rest => if o.Bucket = bucket ∧ o.Key = key then some o.Body else lookup bucket key rest

/-- A facade over an in-memory store: an upload stores the body under the
requested key and reports that key, a download serves the newest body stored
under the key.  The other requests succeed without effect. -/
def memS3 : S3 (List Stored) :=
  { cfg := sampleConfig
    svc :=
      { ListObjects := fun st i =>
          (.ok ⟨(st.filter (fun o => o.Bucket = i.Bucket)).map (fun o => ⟨some o.Key⟩)⟩, st)
        DeleteObjects := fun st i => (.ok ⟨i.Objects.map (fun o => ⟨o.Key⟩)⟩, st)
        ListBuckets := fun st => (.ok [], st)
        HeadBucket := fun st _ => (none, st)
        CreateBucket := fun st _ => (none, st)
        DeleteBucket := fun st _ => (none, st) }
    uploader := { Upload := fun st i => (.ok ⟨some i.Key⟩, ⟨i.Bucket, i.Key, i.Body⟩ :: st) }
    downloader :=
      { Download := fun st i =>
          match lookup i.Bucket i.Key st with
          | some body => (.ok body, st)
          | none => (.error (.leaf (some (.otherType "NoSuchKey")) "NoSuchKey"), st) } }

/-- The listing `["a.txt", "folder/", "b"]`. -/
def sampleListing : ListObjectsOutput :=
  ⟨[⟨some "a.txt"⟩, ⟨some "folder/"⟩, ⟨some "b"⟩]⟩

/-- A requested key is confirmed by the reported deleted set `D` when it is
the key of some entry of `D`. -/
def Confirmed (D : List DeletedObject) (k : String) : Prop :=
  ∃ d ∈ D, d.Key = some k

/-- A configuration with every field empty. -/
def emptyConfig : Config :=
  { AccessID := "", SecretKey := "", Token := "", Region := "", Endpoint := "" }

/-- An SDK whose `LoadDefaultConfig` accepts every set of options. -/
def permissiveSDK : SDK Unit :=
  { awsConfig := LoadOptions
    LoadDefaultConfig := fun o => .ok o
    NewFromConfig := fun _ => (fixedS3 quietAnswers).svc
    NewUploader := fun _ => (fixedS3 quietAnswers).uploader
    NewDownloader := fun _ => (fixedS3 quietAnswers).downloader }

/-- A `*types.NotFound` error as the existence probe returns it, beneath an
operation error that is no API error. -/
def notFoundError : GoError :=
  .wrap none "operation error S3: HeadBucket, NotFound: Not Found"
    (.leaf (some .NotFound) "NotFound: Not Found")

/-- A `*types.NotFound` error wrapped beneath a different API error, which
`errors.As` finds first. -/
def shadowedNotFound : GoError :=
  .wrap (some (.otherType "*smithy.GenericAPIError")) "api error Forbidden: Forbidden"
    (.leaf (some .NotFound) "NotFound: Not Found")

/-! ## Lemmas on `filepath.Ext` and the listing loop -/

theorem ExtLoop_ne_nil_iff (path : List Char) :
    ∀ n, n ≤ path.length →
      (ExtLoop path n ≠ [] ↔ '.' ∈ afterLastSlash (path.take n)) := by
  intro n
  induction n with
  | zero => intro _; simp [ExtLoop, afterLastSlash]
  | succ i ih =>
    intro h
    have hi : i < path.length := h
    obtain ⟨c, hget⟩ : ∃ c, path.get? i = some c := ⟨_, List.get?_eq_get hi⟩
    have htake : path.take (i + 1) = path.take i ++ [c] := by
      simp [List.take_succ, List.get?_eq_getElem?] at hget ⊢
      simp [hget]
    have hdrop : path.drop i ≠ [] := by
      intro hnil
      have := congrArg List.length hnil
      simp at this
      omega
    have ih2 := ih (Nat.le_of_lt hi)
    unfold afterLastSlash at ih2 ⊢
    simp only [List.mem_reverse] at ih2
    rw [htake]
    simp only [ExtLoop, hget, IsPathSeparator, List.reverse_append, List.reverse_cons,
      List.reverse_nil, List.nil_append, List.singleton_append, List.mem_reverse]
    by_cases hs : c = '/'
    · subst hs; simp [List.takeWhile]
    · by_cases hd : c = '.'
      · subst hd; simp [hdrop, List.takeWhile]
      · have hd2 : ¬ ('.' = c) := fun e => hd e.symm
        simp [hs, hd, hd2, List.takeWhile, ih2]

theorem Ext_ne_empty_iff (key : String) :
    Ext key ≠ "" ↔ '.' ∈ afterLastSlash key.data := by
  have h := ExtLoop_ne_nil_iff key.data key.data.length (Nat.le_refl _)
  rw [List.take_length] at h
  rw [← h]
  unfold Ext
  constructor
  · intro hne hnil; apply hne; rw [hnil]
  · intro hne heq; apply hne
    exact congrArg String.data heq

theorem ListLoop_eq (contents : List Object) :
    ∀ result, ListLoop contents result
      = result ++ (contents.filterMap Object.Key).filter (fun k => decide (KeptKey k)) := by
  induction contents with
  | nil => intro result; simp [ListLoop]
  | cons value rest ih =>
    intro result
    cases hk : value.Key with
    | none => simp [ListLoop, hk, ih]
    | some key =>
      by_cases hkept : KeptKey key
      · have hc : key ≠ "" ∧ Ext key ≠ "" := ⟨hkept.1, (Ext_ne_empty_iff key).2 hkept.2⟩
        simp [ListLoop, hk, ih, hkept, hc, List.filterMap_cons]
      · have hc : ¬ (key ≠ "" ∧ Ext key ≠ "") := fun h =>
          hkept ⟨h.1, (Ext_ne_empty_iff key).1 h.2⟩
        simp only [ListLoop, hk, if_neg hc, ih, List.filterMap_cons]
        simp [hkept]

/-! ## Lemmas on the loops of `Delete` -/

theorem DeleteExist_iff (f : String) (D : List DeletedObject) :
    DeleteExist f D = true ↔ Confirmed D f := by
  unfold Confirmed
  induction D with
  | nil => simp [DeleteExist]
  | cons delF rest ih =>
    cases hk : delF.Key with
    | none => simp [DeleteExist, hk, ih]
    | some key =>
      by_cases he : key = f
      · simp [DeleteExist, hk, he]
      · simp [DeleteExist, hk, he, ih]

theorem DeleteVerify_eq_none_iff (D : List DeletedObject) (filePaths : List String) :
    DeleteVerify D filePaths = none ↔ ∀ k ∈ filePaths, Confirmed D k := by
  induction filePaths with
  | nil => simp [DeleteVerify]
  | cons f rest ih =>
    by_cases hf : DeleteExist f D = true
    · have hc := (DeleteExist_iff f D).1 hf
      simp [DeleteVerify, hf, ih, hc]
    · have hc : ¬ Confirmed D f := fun h => hf ((DeleteExist_iff f D).2 h)
      simp [DeleteVerify, hf, hc]

theorem DeleteVerify_first_missing (D : List DeletedObject) (filePaths : List String)
    (e : GoError) (h : DeleteVerify D filePaths = some e) :
    ∃ pre f post, filePaths = pre ++ f :: post ∧ (∀ k ∈ pre, Confirmed D k)
      ∧ ¬ Confirmed D f ∧ e = ErrNotDeleted f := by
  induction filePaths with
  | nil => simp [DeleteVerify] at h
  | cons f rest ih =>
    by_cases hf : DeleteExist f D = true
    · have hc := (DeleteExist_iff f D).1 hf
      simp only [DeleteVerify, hf, Bool.not_true, Bool.false_eq_true, if_false] at h
      obtain ⟨pre, g, post, hsplit, hpre, hg, he⟩ := ih h
      refine ⟨f :: pre, g, post, by simp [hsplit], ?_, hg, he⟩
      intro k hk
      rcases List.mem_cons.1 hk with rfl | hk
      · exact hc
      · exact hpre k hk
    · have hc : ¬ Confirmed D f := fun h => hf ((DeleteExist_iff f D).2 h)
      simp [DeleteVerify, hf] at h
      exact ⟨[], f, rest, rfl, by simp, hc, h.symm⟩

/-! ## Listings -/

/-- C2: for a non-empty bucket name and a successful provider listing, `List`
returns exactly the provider-returned keys that are present, non-empty and
have a `'.'` after their last `'/'`, in the provider's order; keys ending in
`'/'` and keys without a dot in their last element are dropped; the listing
`["a.txt", "folder/", "b"]` gives `["a.txt"]`. -/
theorem List_returns_keys_with_extension {σ : Type} (s : S3 σ) (bucket : String)
    (w : World σ) (res : ListObjectsOutput) (st : σ)
    (hb : bucket ≠ "")
    (hres : s.svc.ListObjects w.state ⟨bucket⟩ = (.ok res, st)) :
    (s.List bucket w).1
        = .ok ((res.Contents.filterMap Object.Key).filter (fun k => decide (KeptKey k)))
      ∧ (∀ k, k ∈ (res.Contents.filterMap Object.Key).filter (fun k => decide (KeptKey k)) ↔
          (∃ o ∈ res.Contents, o.Key = some k) ∧ k ≠ "" ∧ '.' ∈ afterLastSlash k.data)
      ∧ (∀ k, k.data.getLast? = some '/' → ¬ KeptKey k)
      ∧ (∀ k, '.' ∉ k.data → ¬ KeptKey k)
      ∧ ListLoop [⟨some "a.txt"⟩, ⟨some "folder/"⟩, ⟨some "b"⟩] [] = ["a.txt"] := by
  refine ⟨?_, ?_, ?_, ?_, ?_⟩
  · simp [S3.List, hb, World.invoke, hres, ListLoop_eq]
  · intro k
    simp only [List.mem_filter, List.mem_filterMap, decide_eq_true_eq, KeptKey]
  · intro k hlast hkept
    have hrev : ∃ l, k.data.reverse = '/' :: l := by
      cases hr : k.data.reverse with
      | nil => simp at hr; simp [hr] at hlast
      | cons c l =>
        have : k.data = l.reverse ++ [c] := by
          have := congrArg List.reverse hr
          simpa using this
        rw [this] at hlast
        simp at hlast
        exact ⟨l, by rw [hlast]⟩
    obtain ⟨l, hl⟩ := hrev
    have := hkept.2
    simp [afterLastSlash, hl, List.takeWhile] at this
  · intro k hdot hkept
    apply hdot
    have h := hkept.2
    unfold afterLastSlash at h
    rw [List.mem_reverse] at h
    exact List.mem_reverse.1 ((List.takeWhile_sublist _).subset h)
  · decide

/-- The witness of C2: on the listing `["a.txt", "folder/", "b"]` of bucket
`backups` the result is exactly `["a.txt"]`. -/
theorem List_returns_keys_with_extension_witness :
    "backups" ≠ "" ∧
      ((fixedS3 { quietAnswers with list := .ok sampleListing }).List "backups" world0).1
        = .ok ["a.txt"] :=
  ⟨by decide,
   (List_returns_keys_with_extension
      (fixedS3 { quietAnswers with list := .ok sampleListing }) "backups" world0
      sampleListing () (by decide) rfl).1.trans (congrArg Except.ok (by decide))⟩

/-! ## Batch delete -/

/-- C1: for a non-empty bucket name, a non-empty list of requested keys and a
batch delete that succeeds with the reported deleted set `D`, `Delete` returns
no error if and only if every requested key is the key of some entry of `D`;
otherwise the error it returns is the one built from the earliest requested
key that is absent from `D`, and from no other key. -/
theorem Delete_succeeds_iff_every_key_confirmed {σ : Type} (s : S3 σ) (bucket : String)
    (filePaths : List String) (w : World σ) (D : List DeletedObject) (st : σ)
    (hb : bucket ≠ "") (hk : filePaths ≠ [])
    (hres : s.svc.DeleteObjects w.state (DeleteRequest bucket filePaths) = (.ok ⟨D⟩, st)) :
    ((s.Delete bucket filePaths w).1 = none ↔ ∀ k ∈ filePaths, Confirmed D k)
      ∧ (¬ (∀ k ∈ filePaths, Confirmed D k) →
          ∃ pre f post, filePaths = pre ++ f :: post ∧ (∀ k ∈ pre, Confirmed D k)
            ∧ ¬ Confirmed D f
            ∧ (s.Delete bucket filePaths w).1 = some (ErrNotDeleted f)
            ∧ (ErrNotDeleted f).Error = "file \"" ++ f ++ "\" was not deleted") := by
  have hlen : filePaths.length ≠ 0 := by
    intro h; exact hk (List.length_eq_zero.1 h)
  have hrun : (s.Delete bucket filePaths w).1 = DeleteVerify D filePaths := by
    simp [S3.Delete, hb, hlen, hk, World.invoke, hres]
  refine ⟨?_, ?_⟩
  · rw [hrun]; exact DeleteVerify_eq_none_iff D filePaths
  · intro hnot
    cases hv : DeleteVerify D filePaths with
    | none => exact absurd ((DeleteVerify_eq_none_iff D filePaths).1 hv) hnot
    | some e =>
      obtain ⟨pre, f, post, hsplit, hpre, hf, he⟩ := DeleteVerify_first_missing D filePaths e hv
      exact ⟨pre, f, post, hsplit, hpre, hf, by rw [hrun, hv, he], rfl⟩

/-- The witness of C1: for the request `["k1", "k2"]`, of which the provider
confirms only `"k1"`, the error names `"k2"`. -/
theorem Delete_succeeds_iff_every_key_confirmed_witness :
    ¬ (∀ k ∈ ["k1", "k2"], Confirmed [⟨some "k1"⟩] k) ∧
      ∃ pre f post, ["k1", "k2"] = pre ++ f :: post ∧ (∀ k ∈ pre, Confirmed [⟨some "k1"⟩] k)
        ∧ ¬ Confirmed [⟨some "k1"⟩] f
        ∧ ((fixedS3 { quietAnswers with delete := .ok ⟨[⟨some "k1"⟩]⟩ }).Delete "test.bucket"
            ["k1", "k2"] world0).1 = some (ErrNotDeleted f)
        ∧ (ErrNotDeleted f).Error = "file \"" ++ f ++ "\" was not deleted" :=
  have hnot : ¬ (∀ k ∈ ["k1", "k2"], Confirmed [⟨some "k1"⟩] k) := by
    simp [Confirmed]
  ⟨hnot,
   (Delete_succeeds_iff_every_key_confirmed
      (fixedS3 { quietAnswers with delete := .ok ⟨[⟨some "k1"⟩]⟩ }) "test.bucket"
      ["k1", "k2"] world0 [⟨some "k1"⟩] () (by decide) (by decide) rfl).2 hnot⟩

/-! ## Argument checks -/

/-- The guarded operations: with the empty bucket name, `List`, `Upload`,
`Download` and `Delete` return `ErrEmptyBucket` for all values of their other
arguments and leave the provider and its request log untouched. -/
theorem empty_bucket_rejected_by_object_operations {σ : Type} (s : S3 σ) (w : World σ)
    (filePath : String) (content : List UInt8) (filePaths : List String) :
    s.List "" w = (.error ErrEmptyBucket, w)
      ∧ s.Upload "" filePath content w = (.error ErrEmptyBucket, w)
      ∧ s.Download "" filePath w = (.error ErrEmptyBucket, w)
      ∧ s.Delete "" filePaths w = (some ErrEmptyBucket, w) :=
  ⟨by simp [S3.List], by simp [S3.Upload], by simp [S3.Download], by simp [S3.Delete]⟩

/-- The unguarded operations: with the empty bucket name, and whatever the
provider is, `BucketExists`, `CreateBucket` and `DeleteBucket` each hand one
request carrying the empty name to the provider. -/
theorem empty_bucket_reaches_provider_in_bucket_operations {σ : Type} (s : S3 σ)
    (w : World σ) :
    (s.BucketExists "" w).2.calls = w.calls ++ [Call.HeadBucket ""]
      ∧ (s.CreateBucket "" w).2.calls = w.calls ++ [Call.CreateBucket ⟨"", s.cfg.Region⟩]
      ∧ (s.DeleteBucket "" w).2.calls = w.calls ++ [Call.DeleteBucket ""] := by
  refine ⟨?_, ?_, ?_⟩
  · unfold S3.BucketExists
    simp only [World.invoke]
    split
    · rfl
    · split <;> rfl
  · unfold S3.CreateBucket
    simp only [World.invoke]
    split <;> rfl
  · unfold S3.DeleteBucket
    simp only [World.invoke]
    split <;> rfl

/-- C3 fails on the code: with the empty bucket name and a provider that
accepts every request, `BucketExists` returns `(true, nil)`, `CreateBucket` and
`DeleteBucket` return nil, and each of the three has sent its request, with
the empty name, to the provider; none of them returns `ErrEmptyBucket` as
`List`, `Upload`, `Download` and `Delete` do. -/
theorem bucket_operations_send_empty_bucket_to_provider :
    (fixedS3 quietAnswers).BucketExists "" world0
        = ((true, none), ⟨(), [Call.HeadBucket ""]⟩)
      ∧ (fixedS3 quietAnswers).CreateBucket "" world0
        = (none, ⟨(), [Call.CreateBucket ⟨"", "ru-1"⟩]⟩)
      ∧ (fixedS3 quietAnswers).DeleteBucket "" world0
        = (none, ⟨(), [Call.DeleteBucket ""]⟩) :=
  ⟨rfl, rfl, rfl⟩

/-- C8: for a non-empty bucket name, `Upload` with empty content, `Download`
with an empty key and `Delete` with an empty key list each return an error and
leave the provider and its request log untouched, whatever the provider is. -/
theorem argument_checks_precede_provider_calls {σ : Type} (s : S3 σ) (w : World σ)
    (bucket filePath : String) (hb : bucket ≠ "") :
    s.Upload bucket filePath [] w = (.error (errorsNew "empty file content"), w)
      ∧ s.Download bucket "" w = (.error (errorsNew "empty file path"), w)
      ∧ s.Delete bucket [] w = (some (errorsNew "empty filePaths array"), w) := by
  refine ⟨by simp [S3.Upload, hb], by simp [S3.Download, hb], by simp [S3.Delete, hb]⟩

/-- The witness of C8, on a provider that would have accepted every request. -/
theorem argument_checks_precede_provider_calls_witness :
    "backup.new" ≠ "" ∧
      (memS3.Upload "backup.new" "test/a.pdf" [] ⟨[], []⟩
          = (.error (errorsNew "empty file content"), ⟨[], []⟩)
        ∧ memS3.Download "backup.new" "" ⟨[], []⟩
          = (.error (errorsNew "empty file path"), ⟨[], []⟩)
        ∧ memS3.Delete "backup.new" [] ⟨[], []⟩
          = (some (errorsNew "empty filePaths array"), ⟨[], []⟩)) :=
  ⟨by decide,
   argument_checks_precede_provider_calls memS3 ⟨[], []⟩ "backup.new" "test/a.pdf" (by decide)⟩

/-! ## Upload -/

/-- C4 fails as stated: when the provider acknowledges the upload under a key
of its own, `Upload` succeeds and returns that key, not the supplied one. -/
theorem Upload_returns_a_different_key :
    ((fixedS3 { quietAnswers with upload := .ok ⟨some "stored/elsewhere"⟩ }).Upload
        "backup.new" "test/a.pdf" [1] world0).1 = .ok "stored/elsewhere"
      ∧ "stored/elsewhere" ≠ "test/a.pdf" := by
  constructor
  · rfl
  · decide

/-- C4, amended: whenever `Upload` returns without error, the key it returns is
the key the provider reported in its upload result; it is the supplied key
whenever the provider reported the key of the request. -/
theorem Upload_returns_reported_key {σ : Type} (s : S3 σ) (bucket key : String)
    (content : List UInt8) (w : World σ) (k : String)
    (hup : (s.Upload bucket key content w).1 = .ok k) :
    (s.uploader.Upload w.state ⟨bucket, key, content⟩).1 = .ok ⟨some k⟩
      ∧ ((s.uploader.Upload w.state ⟨bucket, key, content⟩).1 = .ok ⟨some key⟩ → k = key) := by
  have h1 : (s.uploader.Upload w.state ⟨bucket, key, content⟩).1 = .ok ⟨some k⟩ := by
    unfold S3.Upload at hup
    split at hup
    · cases hup
    · split at hup
      · cases hup
      · simp only [World.invoke] at hup
        split at hup
        · cases hup
        · rename_i result hr
          split at hup
          · cases hup
          · rename_i key2 hk2
            cases hup
            rw [hr]
            cases result
            simp_all
  refine ⟨h1, ?_⟩
  intro h2
  rw [h1] at h2
  cases h2
  rfl

/-- The witness of C4, amended, on the in-memory store. -/
theorem Upload_returns_reported_key_witness :
    (memS3.Upload "backup.new" "test/a.pdf" [1, 2, 3] ⟨[], []⟩).1 = .ok "test/a.pdf"
      ∧ (memS3.uploader.Upload [] ⟨"backup.new", "test/a.pdf", [1, 2, 3]⟩).1
          = .ok ⟨some "test/a.pdf"⟩ :=
  ⟨rfl,
   (Upload_returns_reported_key memS3 "backup.new" "test/a.pdf" [1, 2, 3] ⟨[], []⟩
      "test/a.pdf" rfl).1⟩

/-- C9 fails on the code: when the provider acknowledges the upload and reports
the empty string as the key, `Upload` returns the empty key and no error. -/
theorem Upload_accepts_empty_reported_key :
    ((fixedS3 { quietAnswers with upload := .ok ⟨some ""⟩ }).Upload
        "backup.new" "test/a.pdf" [1] world0).1 = .ok ""
      ∧ ((fixedS3 { quietAnswers with upload := .ok ⟨none⟩ }).Upload
        "backup.new" "test/a.pdf" [1] world0).1
          = .error (errorsNew "received empty s3 file key") := by
  constructor <;> rfl

/-! ## Existence probe -/

/-- C5: for every bucket name and every outcome of the existence probe,
`BucketExists` returns `(true, nil)` when the probe succeeds, `(false, nil)`
when the probe fails and the API error `errors.As` finds is a
`*types.NotFound`, and `(true, err)` with the provider's error `err` itself in
every other case; so a failed probe yields a nil error only for not-found. -/
theorem BucketExists_suppresses_only_not_found {σ : Type} (s : S3 σ) (bucket : String)
    (w : World σ) :
    ((s.svc.HeadBucket w.state bucket).1 = none →
        (s.BucketExists bucket w).1 = (true, none))
      ∧ (∀ err, (s.svc.HeadBucket w.state bucket).1 = some err →
          errorsAs err = some .NotFound → (s.BucketExists bucket w).1 = (false, none))
      ∧ (∀ err, (s.svc.HeadBucket w.state bucket).1 = some err →
          errorsAs err ≠ some .NotFound → (s.BucketExists bucket w).1 = (true, some err))
      ∧ (∀ err, (s.svc.HeadBucket w.state bucket).1 = some err →
          ((s.BucketExists bucket w).1.2 = none ↔ errorsAs err = some .NotFound)) := by
  have key : ∀ err, (s.svc.HeadBucket w.state bucket).1 = some err →
      (s.BucketExists bucket w).1
        = if errorsAs err = some .NotFound then (false, none) else (true, some err) := by
    intro err h
    unfold S3.BucketExists
    simp only [World.invoke, h]
    split
    · rename_i hnf; simp [hnf]
    · rename_i hnf
      have : ¬ errorsAs err = some .NotFound := fun e => hnf e
      simp [this]
  refine ⟨?_, ?_, ?_, ?_⟩
  · intro h
    unfold S3.BucketExists
    simp only [World.invoke, h]
  · intro err h hnf
    rw [key err h, if_pos hnf]
  · intro err h hnf
    rw [key err h, if_neg hnf]
  · intro err h
    rw [key err h]
    by_cases hnf : errorsAs err = some .NotFound
    · simp [hnf]
    · simp [hnf]

/-- The witness of C5: a not-found probe gives `(false, nil)`. -/
theorem BucketExists_suppresses_only_not_found_witness :
    ((fixedS3 { quietAnswers with head := some notFoundError }).BucketExists
        "test-bucket" world0).1 = (false, none) :=
  (BucketExists_suppresses_only_not_found
      (fixedS3 { quietAnswers with head := some notFoundError }) "test-bucket" world0).2.1
    notFoundError rfl rfl

/-- C10: whenever `BucketExists` returns a non-nil error, the boolean it
returns with it is `true`; so `false` is only ever returned with a nil error. -/
theorem BucketExists_error_comes_with_true {σ : Type} (s : S3 σ) (bucket : String)
    (w : World σ) (herr : (s.BucketExists bucket w).1.2 ≠ none) :
    (s.BucketExists bucket w).1.1 = true := by
  unfold S3.BucketExists at herr ⊢
  simp only [World.invoke] at herr ⊢
  split
  · rfl
  · rename_i err h
    simp only [h] at herr
    split
    · rename_i hnf
      simp [hnf] at herr
    · rfl

/-- The witness of C10: a not-found error wrapped beneath a different API error
is returned as an error, together with `true`. -/
theorem BucketExists_error_comes_with_true_witness :
    ((fixedS3 { quietAnswers with head := some shadowedNotFound }).BucketExists
        "test-bucket" world0).1.2 = some shadowedNotFound
      ∧ ((fixedS3 { quietAnswers with head := some shadowedNotFound }).BucketExists
        "test-bucket" world0).1.1 = true :=
  ⟨rfl,
   BucketExists_error_comes_with_true
     (fixedS3 { quietAnswers with head := some shadowedNotFound }) "test-bucket" world0
     (by decide)⟩

/-! ## Construction -/

/-- C6 fails as stated: for the configuration whose fields are all empty, and
an SDK that loads it, `New` returns a facade, and `Validate` would have
rejected that configuration. -/
theorem New_accepts_empty_configuration :
    (∃ s, New permissiveSDK emptyConfig = .ok s ∧ s.cfg = emptyConfig)
      ∧ emptyConfig.Validate ≠ [] := by
  refine ⟨⟨_, rfl, rfl⟩, by decide⟩

/-- C6, amended: `Config.Validate` reports an error exactly when the access id,
the secret key or the region is empty.  `New` does not call it: `New` returns
an error and no facade exactly when the SDK fails to load the configuration,
and returns that error; otherwise it returns a facade that holds the given
configuration. -/
theorem New_fails_exactly_when_loading_fails {σ : Type} (sdk : SDK σ) (cfg : Config) :
    (cfg.Validate = [] ↔ cfg.AccessID ≠ "" ∧ cfg.SecretKey ≠ "" ∧ cfg.Region ≠ "")
      ∧ (∀ err, New sdk cfg = .error err ↔ sdk.LoadDefaultConfig (loadOptions cfg) = .error err)
      ∧ (∀ awsCfg, sdk.LoadDefaultConfig (loadOptions cfg) = .ok awsCfg →
          ∃ s, New sdk cfg = .ok s ∧ s.cfg = cfg) := by
  refine ⟨?_, ?_, ?_⟩
  · unfold Config.Validate Required
    by_cases h1 : cfg.AccessID = "" <;> by_cases h2 : cfg.SecretKey = "" <;>
      by_cases h3 : cfg.Region = "" <;> simp [h1, h2, h3]
  · intro err
    unfold New
    split
    · rename_i e h; rw [h]; simp
    · rename_i a h; rw [h]; simp
  · intro awsCfg h
    unfold New
    simp only [h]
    exact ⟨_, rfl, rfl⟩

/-! ## Round trip -/

/-- C7 fails as stated: a provider that acknowledges the upload under the
supplied key and then reports the object as missing makes `Upload` succeed and
the following `Download` of the returned key fail. -/
theorem Download_after_Upload_can_fail :
    ((fixedS3 { quietAnswers with upload := .ok ⟨some "test/a.pdf"⟩ }).Upload
        "backup.new" "test/a.pdf" [1, 2, 3] world0).1 = .ok "test/a.pdf"
      ∧ ((fixedS3 { quietAnswers with upload := .ok ⟨some "test/a.pdf"⟩ }).Download
          "backup.new" "test/a.pdf"
          ((fixedS3 { quietAnswers with upload := .ok ⟨some "test/a.pdf"⟩ }).Upload
            "backup.new" "test/a.pdf" [1, 2, 3] world0).2).1
        = .error (errorsNew "failed to download file, NoSuchKey") := by
  constructor <;> rfl

/-- C7, amended: for a valid (non-empty) key, if `Upload(bucket, key, content)`
succeeds and returns `k`, and the provider reported the supplied key for this
upload and afterwards serves the uploaded bytes under it, then
`Download(bucket, k)` on the resulting provider state succeeds and returns
bytes equal to `content`. -/
theorem Download_after_Upload_returns_content {σ : Type} (s : S3 σ) (bucket key : String)
    (content : List UInt8) (w : World σ) (k : String)
    (hkey : key ≠ "")
    (hup : (s.Upload bucket key content w).1 = .ok k)
    (hprov : ∀ out st, s.uploader.Upload w.state ⟨bucket, key, content⟩ = (.ok out, st) →
      out.Key = some key ∧ (s.downloader.Download st ⟨bucket, key⟩).1 = .ok content) :
    (s.Download bucket k (s.Upload bucket key content w).2).1 = .ok content := by
  unfold S3.Upload at hup ⊢
  split at hup
  · cases hup
  · rename_i hb
    split at hup
    · cases hup
    · rename_i hc
      simp only [World.invoke] at hup
      split at hup
      · cases hup
      · rename_i result hr
        split at hup
        · cases hup
        · rename_i key2 hk2
          cases hup
          obtain ⟨hkeyeq, hdown⟩ :=
            hprov result (s.uploader.Upload w.state ⟨bucket, key, content⟩).2
              (Prod.ext hr rfl)
          rw [hk2] at hkeyeq
          cases hkeyeq
          simp only [if_neg hb, if_neg hc, World.invoke, hr, hk2]
          unfold S3.Download
          simp only [if_neg hb, if_neg hkey, World.invoke, hdown]

/-- The witness of C7, amended, on the in-memory store. -/
theorem Download_after_Upload_returns_content_witness :
    "test/a.pdf" ≠ ""
      ∧ (memS3.Upload "backup.new" "test/a.pdf" [1, 2, 3] ⟨[], []⟩).1 = .ok "test/a.pdf"
      ∧ (memS3.Download "backup.new" "test/a.pdf"
          (memS3.Upload "backup.new" "test/a.pdf" [1, 2, 3] ⟨[], []⟩).2).1 = .ok [1, 2, 3] :=
  ⟨by decide, rfl,
   Download_after_Upload_returns_content memS3 "backup.new" "test/a.pdf" [1, 2, 3] ⟨[], []⟩
     "test/a.pdf" (by decide) rfl
     (by
       intro out st h
       simp only [memS3, Prod.mk.injEq, Except.ok.injEq] at h
       obtain ⟨h1, h2⟩ := h
       subst h1 h2
       exact ⟨rfl, rfl⟩)⟩

end awss3
